import Mathlib

/-
Verification of the Live Console Session Engine of serverwave-anywhere.

The definitions below are a shallow embedding of the two contributing
source units:
  - src/components/ConsoleOutput.tsx  (parseAnsi, getLogLevelStyle)
  - src/pages/ServerDetail.tsx        (session state, scroll controller,
    command history, device-code watcher, lifecycle handlers)
Strings are modelled as Lean String (lists of characters); JavaScript
numbers that are always integral are modelled as Nat or Int.
-/

namespace Serverwave

/-- The ANSI escape character, byte 0x1B. -/
def escChar : Char := '\x1b'

/-- The running style state of the ANSI parser in parseAnsi:
the local variables currentClasses, bold, dim, italic, underline. -/
structure SgrState where
  classes : List String
  bold : Bool
  dim : Bool
  italic : Bool
  underline : Bool
deriving DecidableEq

/-- The TextSegment record of ConsoleOutput.tsx.  The four optional flags
are modelled as Bool, with false standing for an absent field. -/
structure TextSegment where
  text : String
  classes : List String
  bold : Bool
  dim : Bool
  italic : Bool
  underline : Bool
deriving DecidableEq

/-- The ANSI_COLORS table: SGR code to Tailwind class. -/
def ansiColors (code : Nat) : Option String :=
  if code = 30 then some "text-zinc-900"
  else if code = 31 then some "text-red-500"
  else if code = 32 then some "text-green-500"
  else if code = 33 then some "text-yellow-500"
  else if code = 34 then some "text-blue-500"
  else if code = 35 then some "text-purple-500"
  else if code = 36 then some "text-cyan-500"
  else if code = 37 then some "text-zinc-300"
  else if code = 90 then some "text-zinc-500"
  else if code = 91 then some "text-red-400"
  else if code = 92 then some "text-green-400"
  else if code = 93 then some "text-yellow-300"
  else if code = 94 then some "text-blue-400"
  else if code = 95 then some "text-purple-400"
  else if code = 96 then some "text-cyan-400"
  else if code = 97 then some "text-white"
  else if code = 40 then some "bg-zinc-900"
  else if code = 41 then some "bg-red-900"
  else if code = 42 then some "bg-green-900"
  else if code = 43 then some "bg-yellow-900"
  else if code = 44 then some "bg-blue-900"
  else if code = 45 then some "bg-purple-900"
  else if code = 46 then some "bg-cyan-900"
  else if code = 47 then some "bg-zinc-700"
  else none

/-- JavaScript String.prototype.startsWith for the class-kind test. -/
def jsStartsWith (s pre : String) : Bool := pre.data.isPrefixOf s.data

/-- One iteration of the for-of loop over codes in parseAnsi. -/
def applyCode (st : SgrState) (code : Nat) : SgrState :=
  if code = 0 then
    { classes := [], bold := false, dim := false, italic := false, underline := false }
  else if code = 1 then { st with bold := true }
  else if code = 2 then { st with dim := true }
  else if code = 3 then { st with italic := true }
  else if code = 4 then { st with underline := true }
  else if code = 22 then { st with bold := false, dim := false }
  else if code = 23 then { st with italic := false }
  else if code = 24 then { st with underline := false }
  else
    match ansiColors code with
    | some cls =>
      let kept :=
        if (30 ≤ code ∧ code ≤ 37) ∨ (90 ≤ code ∧ code ≤ 97) then
          st.classes.filter (fun c => !(jsStartsWith c "text-"))
        else if 40 ≤ code ∧ code ≤ 47 then
          st.classes.filter (fun c => !(jsStartsWith c "bg-"))
        else st.classes
      { st with classes := kept ++ [cls] }
    | none => st

/-- The whole for-of loop: codes applied left to right. -/
def applyCodes (st : SgrState) (codes : List Nat) : SgrState :=
  codes.foldl applyCode st

/-- Characters allowed in the parameter part of an SGR marker,
the regex class of digits and semicolons. -/
def isSgrParamChar (c : Char) : Bool := c.isDigit || c = ';'

/-- Prepending one parameter character to the result of readMarker. -/
def consParam (c : Char) :
    Option (List Char × List Char) → Option (List Char × List Char)
  | some (p, r) => some (c :: p, r)
  | none => none

/-- Reads the parameter characters and the final letter m of a marker,
starting just after the two characters ESC and open bracket.  Returns the
parameter characters and the rest of the line, or none when the marker is
malformed (no terminating m). -/
def readMarker : List Char → Option (List Char × List Char)
  | [] => none
  | c :: rest =>
    if c = 'm' then some ([], rest)
    else if isSgrParamChar c then consParam c (readMarker rest)
    else none

/-- Prepending one literal text character to the result of findNextMarker. -/
def consText (c : Char) :
    Option (List Char × List Char × List Char) →
      Option (List Char × List Char × List Char)
  | some (t, p, r) => some (c :: t, p, r)
  | none => none

/-- Finds the next well-formed SGR marker, scanning left to right as the
global regex of parseAnsi does.  Returns the literal text before the
marker, the marker parameters, and the rest of the line after the marker. -/
def findNextMarker : List Char → Option (List Char × List Char × List Char)
  | [] => none
  | c :: rest =>
    if c = escChar then
      match rest with
      | c2 :: rest2 =>
        if c2 = '[' then
          match readMarker rest2 with
          | some (p, tail) => some ([], p, tail)
          | none => consText c (findNextMarker rest)
        else consText c (findNextMarker rest)
      | [] => consText c (findNextMarker rest)
    else consText c (findNextMarker rest)

/-- The split on semicolons performed by String.prototype.split. -/
def splitSemi : List Char → List (List Char)
  | [] => [[]]
  | c :: rest =>
    if c = ';' then [] :: splitSemi rest
    else
      match splitSemi rest with
      | g :: gs => (c :: g) :: gs
      | [] => [[c]]

/-- JavaScript Number on a string of decimal digits; the empty string
gives 0, exactly as Number of an empty string does. -/
def natOfDigits (cs : List Char) : Nat :=
  cs.foldl (fun a c => 10 * a + (c.toNat - 48)) 0

/-- The codes of one marker: an empty parameter list is treated as the
single code 0 (match one or two or the literal string zero), otherwise the
parameters are split on semicolons and each part converted by Number. -/
def codesOfParams (ps : List Char) : List Nat :=
  if ps.isEmpty then [0]
  else (splitSemi ps).map natOfDigits

/-- Pushing the accumulated run of visible characters as one segment,
skipped when the run is empty, as the if-text guard of parseAnsi does. -/
def pushRun (run : List Char) (st : SgrState) : List TextSegment :=
  if run.isEmpty then []
  else
    [{ text := String.mk run, classes := st.classes, bold := st.bold,
       dim := st.dim, italic := st.italic, underline := st.underline }]

/-- The while-loop of parseAnsi, driven by a fuel argument that is always
called with more fuel than the length of the remaining input. -/
def parseLoop : Nat → List Char → SgrState → List TextSegment
  | 0, _, _ => []
  | fuel + 1, cs, st =>
    match findNextMarker cs with
    | none => pushRun cs st
    | some (t, p, r) =>
      pushRun t st ++ parseLoop fuel r (applyCodes st (codesOfParams p))

/-- Removal of every well-formed SGR marker, the textual effect of the
same scanning loop. -/
def stripLoop : Nat → List Char → List Char
  | 0, _ => []
  | fuel + 1, cs =>
    match findNextMarker cs with
    | none => cs
    | some (t, _, r) => t ++ stripLoop fuel r

/-- The default style state at the start of a line. -/
def initialSgr : SgrState :=
  { classes := [], bold := false, dim := false, italic := false, underline := false }

/-- parseAnsi of ConsoleOutput.tsx: the segments produced by the scanning
loop, or, when that list is empty, a single fallback segment holding the
whole raw input with empty classes. -/
def parseAnsi (input : String) : List TextSegment :=
  let segs := parseLoop (input.data.length + 1) input.data initialSgr
  if segs.isEmpty then
    [{ text := input, classes := [], bold := false, dim := false,
       italic := false, underline := false }]
  else segs

/-- The input with every well-formed SGR marker removed. -/
def stripAnsiStr (s : String) : String :=
  String.mk (stripLoop (s.data.length + 1) s.data)

/-- The presence test for the escape marker byte sequence, the regex
testing for ESC followed by an open bracket. -/
def hasAnsiList : List Char → Bool
  | [] => false
  | c :: rest =>
    match rest with
    | '[' :: _ => if c = escChar then true else hasAnsiList rest
    | _ => hasAnsiList rest

/-- hasAnsi on a whole line. -/
def hasAnsiStr (s : String) : Bool := hasAnsiList s.data

/-- Concatenation of the text fields of a segment list. -/
def concatSegText (segs : List TextSegment) : String :=
  segs.foldr (fun sg acc => sg.text ++ acc) ""

/-- The character-level concatenation of the text fields. -/
def segChars (segs : List TextSegment) : List Char :=
  segs.foldr (fun sg acc => sg.text.data ++ acc) []

/-! ## Severity classifier (getLogLevelStyle) -/

/-- JavaScript String.prototype.toLowerCase, on the ASCII range. -/
def jsToLower (s : String) : String := String.mk (s.data.map Char.toLower)

/-- A word character of the regex word-boundary test: letters, digits and
the underscore. -/
def isWordChar (c : Char) : Bool := c.isAlpha || c.isDigit || c = '_'

/-- Whether a word boundary stands between the previous character (none at
the start of the line) and the pattern. -/
def boundaryOk : Option Char → Bool
  | none => true
  | some c => !isWordChar c

/-- Substring occurrence, the test of a regex with no anchors. -/
def hasSub : List Char → List Char → Bool
  | pat, [] => pat.isEmpty
  | pat, c :: rest => pat.isPrefixOf (c :: rest) || hasSub pat rest

/-- The pattern occurs here delimited by word boundaries on both sides. -/
def wordAt (pat : List Char) (prev : Option Char) (cs : List Char) : Bool :=
  boundaryOk prev && pat.isPrefixOf cs && boundaryOk (cs.drop pat.length).head?

/-- Scanning every position for a word-delimited occurrence. -/
def hasWordAux (pat : List Char) : Option Char → List Char → Bool
  | prev, [] => wordAt pat prev []
  | prev, c :: rest => wordAt pat prev (c :: rest) || hasWordAux pat (some c) rest

/-- The word-boundary regex test for a pattern made of word characters. -/
def hasWord (pat : List Char) (cs : List Char) : Bool := hasWordAux pat none cs

/-- The regex for warn with an optional ing suffix, at one position:
either the seven-letter or the four-letter form, delimited by boundaries. -/
def warnAt (prev : Option Char) (cs : List Char) : Bool :=
  boundaryOk prev &&
    (("warning".data.isPrefixOf cs && boundaryOk (cs.drop 7).head?) ||
     ("warn".data.isPrefixOf cs && boundaryOk (cs.drop 4).head?))

/-- Scanning every position for the warn-or-warning word. -/
def hasWarnAux : Option Char → List Char → Bool
  | prev, [] => warnAt prev []
  | prev, c :: rest => warnAt prev (c :: rest) || hasWarnAux (some c) rest

/-- The whole-line warn-or-warning word test. -/
def hasWarnWord (cs : List Char) : Bool := hasWarnAux none cs

/-- getLogLevelStyle of ConsoleOutput.tsx: the pair of the text class and
the line class.  The case-insensitive exception test on the raw line is
modelled as a substring test on the lowercased line, which is the same
test on the ASCII range. -/
def getLogLevelStyle (line : String) : String × String :=
  let lower := (jsToLower line).data
  if hasWord "error".data lower || hasSub "[error]".data lower ||
      hasSub "exception".data lower then
    ("text-red-400", "bg-red-950/20 border-l-red-500")
  else if hasWarnWord lower || hasSub "[warn]".data lower ||
      hasSub "[warning]".data lower then
    ("text-yellow-400", "bg-yellow-950/10 border-l-yellow-500")
  else if hasWord "debug".data lower || hasSub "[debug]".data lower then
    ("text-zinc-500", "")
  else ("", "")

/-! ## Session state of ServerDetail.tsx -/

/-- The server status values of the lifecycle signal. -/
inductive Status where
  | starting
  | installing
  | running
  | stopping
  | stopped
  | error
deriving DecidableEq

/-- The pieces of React state and refs of the ServerDetail component that
the console session engine mutates: the log buffer, the streaming flag,
the scroll controller flags and refs, the command input and history, and
the device-code watcher state. -/
@[ext]
structure SessionSt where
  logs : List String
  isStreaming : Bool
  autoScroll : Bool
  userScrolled : Bool
  lastLogCount : Nat
  viewport : Nat
  command : String
  commandHistory : List String
  historyIndex : Int
  oauthUrl : Option String
  oauthCode : Option String
  oauthDismissed : Bool
deriving DecidableEq

/-! ## Scroll controller -/

/-- handleScroll of ServerDetail.tsx, given the scroll metrics read from
the console element. -/
def handleScroll (scrollTop scrollHeight clientHeight : Int) (s : SessionSt) :
    SessionSt :=
  let isAtBottom := scrollHeight - scrollTop - clientHeight < 50
  let s1 :=
    if ¬isAtBottom ∧ s.lastLogCount = s.logs.length then
      { s with userScrolled := true, autoScroll := false }
    else s
  if isAtBottom then { s1 with userScrolled := false, autoScroll := true } else s1

/-- The auto-scroll effect: when auto-scroll is on and the user has not
scrolled away, jump the viewport to the end of the buffer; always record
the buffer length last seen. -/
def autoScrollEffect (s : SessionSt) : SessionSt :=
  let s1 :=
    if s.autoScroll = true ∧ s.userScrolled = false then
      { s with viewport := s.logs.length }
    else s
  { s1 with lastLogCount := s1.logs.length }

/-- One incoming line: the stream listener appends it to the buffer and
the auto-scroll effect runs on the grown buffer. -/
def appendLine (line : String) (s : SessionSt) : SessionSt :=
  autoScrollEffect { s with logs := s.logs ++ [line] }

/-! ## Command entry and history -/

/-- JavaScript String.prototype.trim restricted to ASCII whitespace. -/
def jsTrim (s : String) : String :=
  String.mk
    (((s.data.dropWhile Char.isWhitespace).reverse.dropWhile
      Char.isWhitespace).reverse)

/-- handleSendCommand of ServerDetail.tsx: trims the input; when nonempty,
moves the command to the newest history position, leaves browsing mode,
echoes the command into the buffer and clears the input. -/
def handleSendCommand (s : SessionSt) : SessionSt :=
  if jsTrim s.command = "" then s
  else
    let cmd := jsTrim s.command
    { s with
      commandHistory := s.commandHistory.filter (fun c => c != cmd) ++ [cmd],
      historyIndex := -1,
      logs := s.logs ++ ["> " ++ cmd],
      command := "" }

/-- JavaScript array indexing combined with the or-empty-string fallback:
a negative or out-of-range index yields the empty string, and an empty
string entry also yields the empty string, the same value. -/
def jsGet (l : List String) (i : Int) : String :=
  if i < 0 then "" else (l.get? i.toNat).getD ""

/-- The ArrowUp branch of handleKeyDown: steps the history cursor one
position toward the oldest entry, bounded at the oldest, and recalls the
entry at the cursor. -/
def handleArrowUp (s : SessionSt) : SessionSt :=
  if 0 < s.commandHistory.length then
    let newIndex :=
      if s.historyIndex < (s.commandHistory.length : Int) - 1 then
        s.historyIndex + 1
      else s.historyIndex
    { s with
      historyIndex := newIndex,
      command := jsGet s.commandHistory ((s.commandHistory.length : Int) - 1 - newIndex) }
  else s

/-! ## Device-code watcher -/

/-- The cleaning performed on a line before matching: the marker-removal
replace is applied twice, exactly as the source chains two identical
replaces (the \x1b and \u001b escapes denote the same character); the
second pass is not redundant, because it removes markers formed at the
seams of the first removal.  The control characters 0x00 to 0x1F are
removed afterwards. -/
def cleanLine (line : String) : List Char :=
  let pass1 := stripLoop (line.data.length + 1) line.data
  let pass2 := stripLoop (pass1.length + 1) pass1
  pass2.filter (fun c => !(c.toNat ≤ 31))

/-- The literal part of the verification-URL pattern, up to and including
the user_code key and its equals sign. -/
def oauthUrlPat : List Char :=
  "https://oauth.accounts.hytale.com/oauth2/device/verify?user_code=".data

/-- An alphanumeric character of the code capture group. -/
def isCodeAlnum (c : Char) : Bool := c.isAlpha || c.isDigit

/-- Matching the verification-URL pattern at the head of a line: the
literal part followed by at least one alphanumeric character; the match is
the literal part plus the maximal alphanumeric run, the capture the run. -/
def matchOauthHere (cs : List Char) : Option (String × String) :=
  if oauthUrlPat.isPrefixOf cs then
    let run := (cs.drop oauthUrlPat.length).takeWhile isCodeAlnum
    if run.isEmpty then none
    else some (String.mk (oauthUrlPat ++ run), String.mk run)
  else none

/-- The leftmost match of the verification-URL pattern in a line. -/
def findOauth : List Char → Option (String × String)
  | [] => none
  | c :: rest =>
    match matchOauthHere (c :: rest) with
    | some r => some r
    | none => findOauth rest

/-- The for-of loop over the scanned window: the first line (in the given
order) whose cleaned text matches yields the URL and the code. -/
def scanWindow : List String → Option (String × String)
  | [] => none
  | line :: rest =>
    match findOauth (cleanLine line) with
    | some r => some r
    | none => scanWindow rest

/-- JavaScript Array.prototype.slice with a negative start: the most
recent n entries (all of them when fewer exist). -/
def lastN (n : Nat) (l : List α) : List α := l.drop (l.length - n)

/-- The scan of the watcher: the most recent 30 lines, newest first. -/
def detectOauth (logs : List String) : Option (String × String) :=
  scanWindow (lastN 30 logs).reverse

/-- The device-code watcher effect of ServerDetail.tsx: on a terminal
status it clears an active detection and resets the dismissed flag; when
dismissed or already latched it does nothing; otherwise it scans the
buffer tail and latches the first match. -/
def watcherStep (status : Status) (s : SessionSt) : SessionSt :=
  if status = Status.stopped ∨ status = Status.error then
    let s1 :=
      if s.oauthUrl.isSome then { s with oauthUrl := none, oauthCode := none }
      else s
    { s1 with oauthDismissed := false }
  else if s.oauthDismissed = true ∨ s.oauthUrl.isSome = true then s
  else
    match detectOauth s.logs with
    | some (url, code) => { s with oauthUrl := some url, oauthCode := some code }
    | none => s

/-! ## Lifecycle handlers -/

/-- The status-transition effect: when the status goes from running to
stopped, the buffer is cleared, streaming marked off and the scroll
controller re-pinned. -/
def statusTransition (prev next : Status) (s : SessionSt) : SessionSt :=
  if prev = Status.running ∧ next = Status.stopped then
    { s with logs := [], isStreaming := false, userScrolled := false,
             autoScroll := true }
  else s

/-- handleStop of ServerDetail.tsx: replaces the buffer with a single
synthesized line and clears the active detection, leaving the dismissed
flag untouched. -/
def handleStop (s : SessionSt) : SessionSt :=
  { s with logs := ["Stopping server..."], oauthUrl := none, oauthCode := none }

/-- The dismiss action of the authentication popup (backdrop click or the
Dismiss button): it clears the URL and sets the dismissed flag, but does
not clear the code. -/
def handleOauthDismiss (s : SessionSt) : SessionSt :=
  { s with oauthUrl := none, oauthDismissed := true }

/-! ## Helper lemmas about the ANSI parser -/

theorem consParam_some {c : Char} {x : Option (List Char × List Char)}
    {p r : List Char} (h : consParam c x = some (p, r)) :
    ∃ p', x = some (p', r) ∧ p = c :: p' := by
  cases x with
  | none => simp [consParam] at h
  | some pr =>
    obtain ⟨p', r'⟩ := pr
    simp only [consParam, Option.some.injEq, Prod.mk.injEq] at h
    exact ⟨p', by simp [h.2.symm], h.1.symm⟩

theorem readMarker_len :
    ∀ (cs p r : List Char), readMarker cs = some (p, r) → r.length < cs.length := by
  intro cs
  induction cs with
  | nil => intro p r h; simp [readMarker] at h
  | cons c rest ih =>
    intro p r h
    by_cases hm : c = 'm'
    · simp only [readMarker, if_pos hm, Option.some.injEq, Prod.mk.injEq] at h
      obtain ⟨-, rfl⟩ := h
      simp
    · by_cases hp : isSgrParamChar c = true
      · simp only [readMarker, if_neg hm, if_pos hp] at h
        obtain ⟨p', hx, -⟩ := consParam_some h
        have := ih p' r hx
        simp only [List.length_cons]
        omega
      · simp [readMarker, if_neg hm, hp] at h

theorem consText_some {c : Char}
    {x : Option (List Char × List Char × List Char)} {t p r : List Char}
    (h : consText c x = some (t, p, r)) :
    ∃ t', x = some (t', p, r) ∧ t = c :: t' := by
  cases x with
  | none => simp [consText] at h
  | some tpr =>
    obtain ⟨t', p', r'⟩ := tpr
    simp only [consText, Option.some.injEq, Prod.mk.injEq] at h
    exact ⟨t', by simp [h.2.1.symm, h.2.2.symm], h.1.symm⟩

theorem findNextMarker_len :
    ∀ (cs t p r : List Char),
      findNextMarker cs = some (t, p, r) → r.length < cs.length := by
  intro cs
  induction cs with
  | nil => intro t p r h; simp [findNextMarker] at h
  | cons c rest ih =>
    intro t p r h
    have hskip :
        consText c (findNextMarker rest) = some (t, p, r) →
          r.length < (c :: rest).length := by
      intro hm
      obtain ⟨t', hx, -⟩ := consText_some hm
      have := ih t' p r hx
      simp only [List.length_cons]
      omega
    by_cases he : c = escChar
    · cases rest with
      | nil => simp only [findNextMarker, if_pos he] at h; exact hskip h
      | cons c2 rest2 =>
        by_cases hb : c2 = '['
        · cases hrm : readMarker rest2 with
          | some pr =>
            obtain ⟨p', tail⟩ := pr
            simp only [findNextMarker, if_pos he, if_pos hb, hrm,
              Option.some.injEq, Prod.mk.injEq] at h
            obtain ⟨-, -, rfl⟩ := h
            have := readMarker_len rest2 p' tail hrm
            simp only [List.length_cons]
            omega
          | none =>
            simp only [findNextMarker, if_pos he, if_pos hb, hrm] at h
            exact hskip h
        · simp only [findNextMarker, if_pos he, if_neg hb] at h
          exact hskip h
    · simp only [findNextMarker, if_neg he] at h
      exact hskip h

theorem pushRun_chars (t : List Char) (st : SgrState) :
    segChars (pushRun t st) = t := by
  cases t with
  | nil => simp [pushRun, segChars]
  | cons c rest => simp [pushRun, segChars, String.mk]

theorem pushRun_eq_nil_iff (t : List Char) (st : SgrState) :
    pushRun t st = [] ↔ t = [] := by
  cases t with
  | nil => simp [pushRun]
  | cons c rest => simp [pushRun]

theorem segChars_append (a b : List TextSegment) :
    segChars (a ++ b) = segChars a ++ segChars b := by
  induction a with
  | nil => simp [segChars]
  | cons sg rest ih => simp [segChars, List.foldr_cons] at ih ⊢; simp [ih]

/-- The central invariant of the scanning loop: the visible characters of
the produced segments are exactly the input with every well-formed marker
removed. -/
theorem parseLoop_chars :
    ∀ (fuel : Nat) (cs : List Char) (st : SgrState), cs.length < fuel →
      segChars (parseLoop fuel cs st) = stripLoop fuel cs := by
  intro fuel
  induction fuel with
  | zero => intro cs st h; omega
  | succ n ih =>
    intro cs st h
    cases hfm : findNextMarker cs with
    | none => simp [parseLoop, stripLoop, hfm, pushRun_chars]
    | some tpr =>
      obtain ⟨t, p, r⟩ := tpr
      have hr : r.length < n := by
        have := findNextMarker_len cs t p r hfm
        omega
      simp [parseLoop, stripLoop, hfm, segChars_append, pushRun_chars,
        ih r (applyCodes st (codesOfParams p)) hr]

/-- The loop produces no segment exactly when the stripped text is empty. -/
theorem parseLoop_eq_nil_iff :
    ∀ (fuel : Nat) (cs : List Char) (st : SgrState), cs.length < fuel →
      (parseLoop fuel cs st = [] ↔ stripLoop fuel cs = []) := by
  intro fuel
  induction fuel with
  | zero => intro cs st h; omega
  | succ n ih =>
    intro cs st h
    cases hfm : findNextMarker cs with
    | none => simp [parseLoop, stripLoop, hfm, pushRun_eq_nil_iff]
    | some tpr =>
      obtain ⟨t, p, r⟩ := tpr
      have hr : r.length < n := by
        have := findNextMarker_len cs t p r hfm
        omega
      simp [parseLoop, stripLoop, hfm, pushRun_eq_nil_iff,
        ih r (applyCodes st (codesOfParams p)) hr]

theorem string_data_append (a b : String) : (a ++ b).data = a.data ++ b.data := by
  cases a; cases b; rfl

theorem concatSegText_data (segs : List TextSegment) :
    (concatSegText segs).data = segChars segs := by
  induction segs with
  | nil => rfl
  | cons sg rest ih =>
    simp only [concatSegText, segChars, List.foldr_cons] at ih ⊢
    rw [string_data_append, ih]

theorem string_of_data_eq {a b : String} (h : a.data = b.data) : a = b := by
  cases a; cases b; cases h; rfl

/-! ## Claim C1 -/

/-- Claim C1, as frozen, is false on the code: on a line consisting only
of markers, parseAnsi returns the raw input (escape bytes included) as a
single fallback segment, so concatenating the text fields does not yield
the marker-stripped input (which is empty) on that line. -/
theorem parseAnsi_concat_cex :
    hasAnsiStr "\x1b[31m" = true ∧
      concatSegText (parseAnsi "\x1b[31m") ≠ stripAnsiStr "\x1b[31m" := by
  constructor
  · decide
  · decide

/-- Claim C1, amended: for every input line that contains at least one
style marker and whose text with every well-formed SGR marker removed is
nonempty, concatenating the text fields of the segments produced by
parseAnsi yields the input with every well-formed marker removed. -/
theorem parseAnsi_concat (input : String)
    (_h1 : hasAnsiStr input = true) (h2 : stripAnsiStr input ≠ "") :
    concatSegText (parseAnsi input) = stripAnsiStr input := by
  have hlen : input.data.length < input.length + 1 := Nat.lt_succ_self _
  have hstrip : stripLoop (input.length + 1) input.data ≠ [] := by
    intro hnil
    exact h2 (string_of_data_eq (show (stripAnsiStr input).data = "".data by
      simp [stripAnsiStr, hnil]))
  have hsegs : parseLoop (input.length + 1) input.data initialSgr ≠ [] := by
    intro hnil
    exact hstrip ((parseLoop_eq_nil_iff _ _ initialSgr hlen).mp hnil)
  apply string_of_data_eq
  rw [concatSegText_data]
  simp only [parseAnsi]
  rw [if_neg (by simpa [List.isEmpty_iff] using hsegs)]
  simpa [stripAnsiStr] using parseLoop_chars _ input.data initialSgr hlen

/-- Witness for C1 at the spec example line: red error, reset, plain ok. -/
theorem parseAnsi_concat_witness :
    concatSegText (parseAnsi "\x1b[31merror\x1b[0m ok") =
      stripAnsiStr "\x1b[31merror\x1b[0m ok" :=
  parseAnsi_concat "\x1b[31merror\x1b[0m ok" (by decide) (by decide)

/-! ## Claim C9 -/

/-- Claim C9: on a line that contains escape markers but whose visible
text outside the markers is empty, parseAnsi returns exactly one segment
holding the whole raw input (escape bytes still present) with default
styling, rather than an empty list. -/
theorem parseAnsi_markers_only (input : String)
    (_h1 : hasAnsiStr input = true) (h2 : stripAnsiStr input = "") :
    parseAnsi input =
      [{ text := input, classes := [], bold := false, dim := false,
         italic := false, underline := false }] := by
  have hlen : input.data.length < input.length + 1 := Nat.lt_succ_self _
  have hstrip : stripLoop (input.length + 1) input.data = [] := by
    have h3 : (stripAnsiStr input).data = "".data := by rw [h2]
    simpa [stripAnsiStr] using h3
  have hsegs : parseLoop (input.length + 1) input.data initialSgr = [] :=
    (parseLoop_eq_nil_iff _ _ initialSgr hlen).mpr hstrip
  simp [parseAnsi, hsegs]

/-- Witness for C9 on a line made of two markers and nothing else. -/
theorem parseAnsi_markers_only_witness :
    parseAnsi "\x1b[31m\x1b[0m" =
      [{ text := "\x1b[31m\x1b[0m", classes := [], bold := false, dim := false,
         italic := false, underline := false }] :=
  parseAnsi_markers_only "\x1b[31m\x1b[0m" (by decide) (by decide)

/-! ## Claim C8 -/

/-- Claim C8: within a line, applying SGR code 0 after any sequence of
previously applied style and color codes yields the default style for
subsequent text: no foreground or background class and all four flags
off. -/
theorem sgr_zero_resets (codes : List Nat) (st : SgrState) :
    applyCode (applyCodes st codes) 0 = initialSgr := rfl

/-! ## Claim C5 -/

/-- Claim C5, as frozen, is false on the code: the line errors contains
the substring error, yet the classifier requires a word-boundary match
and labels the line none, not error. -/
theorem severity_error_cex :
    hasSub "error".data (jsToLower "errors").data = true ∧
      getLogLevelStyle "errors" = ("", "") := by
  constructor
  · decide
  · decide

/-- Claim C5, amended: for a line with no escape sequences, the classifier
labels it error whenever the lowercased line contains the standalone word
error (delimited by word boundaries), the bracketed form, or the substring
exception; this check takes priority over the warning and debug checks. -/
theorem severity_error (line : String) (_h0 : hasAnsiStr line = false)
    (h : hasWord "error".data (jsToLower line).data = true ∨
         hasSub "[error]".data (jsToLower line).data = true ∨
         hasSub "exception".data (jsToLower line).data = true) :
    getLogLevelStyle line = ("text-red-400", "bg-red-950/20 border-l-red-500") := by
  rcases h with h | h | h <;> simp [getLogLevelStyle, h]

/-- Witness for C5 on a line that also contains a warning marker, showing
the error check winning. -/
theorem severity_error_witness :
    getLogLevelStyle "Caught error while [warning] check" =
      ("text-red-400", "bg-red-950/20 border-l-red-500") :=
  severity_error "Caught error while [warning] check" (by decide)
    (Or.inl (by decide))

/-! ## Claim C10 -/

/-- Claim C10: an explicit user stop does not empty the buffer: it becomes
the single synthesized stopping line; the detection URL and code are
cleared; the dismissed flag is left exactly as it was. -/
theorem handleStop_frame (s : SessionSt) :
    (handleStop s).logs = ["Stopping server..."] ∧
      (handleStop s).logs ≠ [] ∧
      (handleStop s).oauthUrl = none ∧
      (handleStop s).oauthCode = none ∧
      (handleStop s).oauthDismissed = s.oauthDismissed :=
  ⟨rfl, by simp [handleStop], rfl, rfl, rfl⟩

/-! ## Claim C4 -/

/-- A running-session state with a latched detection (URL and code both
set), the starting point of the dismissal trace. -/
def latchedSt : SessionSt :=
  { logs := ["auth line"], isStreaming := true, autoScroll := true,
    userScrolled := false, lastLogCount := 1, viewport := 1, command := "",
    commandHistory := [], historyIndex := -1,
    oauthUrl := some "https://oauth.accounts.hytale.com/oauth2/device/verify?user_code=AB",
    oauthCode := some "AB", oauthDismissed := false }

/-- Claim C4, as frozen, is false on the code: dismissal clears only the
URL, so from a latched-then-dismissed state (reachable while running) the
running-to-stopped transition finds no URL, its guard skips the clearing,
and the stale code survives the transition instead of being cleared. -/
theorem stop_transition_resets_cex :
    (watcherStep Status.stopped (statusTransition Status.running Status.stopped
      (handleOauthDismiss latchedSt))).oauthCode = some "AB" ∧
    (watcherStep Status.stopped (statusTransition Status.running Status.stopped
      (handleOauthDismiss latchedSt))).oauthCode ≠ none := by
  constructor
  · rfl
  · decide

/-- Claim C4, amended: on the running-to-stopped transition the log
buffer becomes empty, the detection URL is cleared, the detection code is
cleared whenever a URL is still latched at the transition (a prior
dismissal clears only the URL, leaving a stale code that survives), and
the dismissed flag is reset to false, so a future run can re-detect. -/
theorem stop_transition_resets (s : SessionSt) :
    (watcherStep Status.stopped (statusTransition Status.running Status.stopped s)).logs = [] ∧
    (watcherStep Status.stopped (statusTransition Status.running Status.stopped s)).oauthUrl = none ∧
    (s.oauthUrl.isSome = true →
      (watcherStep Status.stopped (statusTransition Status.running Status.stopped s)).oauthCode = none) ∧
    (watcherStep Status.stopped (statusTransition Status.running Status.stopped s)).oauthDismissed = false := by
  have htr : statusTransition Status.running Status.stopped s =
      { s with logs := [], isStreaming := false, userScrolled := false,
               autoScroll := true } := by
    simp [statusTransition]
  rw [htr]
  cases hu : s.oauthUrl with
  | some u => simp [watcherStep, hu]
  | none => simp [watcherStep, hu]

/-- Witness for C4 at a state holding a latched detection: the buffer
empties and the code is cleared along with the URL. -/
theorem stop_transition_resets_witness :
    (watcherStep Status.stopped (statusTransition Status.running Status.stopped
      latchedSt)).logs = [] ∧
    (watcherStep Status.stopped (statusTransition Status.running Status.stopped
      latchedSt)).oauthCode = none := by
  have h := stop_transition_resets latchedSt
  exact ⟨h.1, h.2.2.1 rfl⟩

/-! ## Claim C2 -/

theorem scanWindow_isSome_iff (ls : List String) :
    (scanWindow ls).isSome = true ↔
      ∃ l ∈ ls, (findOauth (cleanLine l)).isSome = true := by
  induction ls with
  | nil => simp [scanWindow]
  | cons a rest ih =>
    cases hfa : findOauth (cleanLine a) with
    | some r =>
      simp only [scanWindow, hfa, Option.isSome_some, true_iff]
      exact ⟨a, by simp, by simp [hfa]⟩
    | none =>
      simp only [scanWindow, hfa, ih, List.mem_cons]
      constructor
      · rintro ⟨l, hl, hm⟩; exact ⟨l, Or.inr hl, hm⟩
      · rintro ⟨l, hl | hl, hm⟩
        · subst hl; simp [hfa] at hm
        · exact ⟨l, hl, hm⟩

theorem detectOauth_isSome_iff (logs : List String) :
    (detectOauth logs).isSome = true ↔
      ∃ l ∈ lastN 30 logs, (findOauth (cleanLine l)).isSome = true := by
  rw [detectOauth, scanWindow_isSome_iff]
  simp [List.mem_reverse]

/-- Claim C2: when the session is non-terminal, nothing is latched and the
watcher is not dismissed, one watcher step latches a detection (both URL
and code) exactly when some line of the most recent 30 buffer lines,
cleaned of escape sequences and control characters, matches the
verification-URL pattern with a user_code value; a line outside that
window never triggers a detection. -/
theorem watcher_scan_window (status : Status) (s : SessionSt)
    (h1 : status ≠ Status.stopped) (h2 : status ≠ Status.error)
    (h3 : s.oauthUrl = none) (h4 : s.oauthCode = none)
    (h5 : s.oauthDismissed = false) :
    ((watcherStep status s).oauthUrl.isSome = true ↔
      ∃ l ∈ lastN 30 s.logs, (findOauth (cleanLine l)).isSome = true) ∧
    ((watcherStep status s).oauthCode.isSome = true ↔
      ∃ l ∈ lastN 30 s.logs, (findOauth (cleanLine l)).isSome = true) := by
  have hw : watcherStep status s =
      (match detectOauth s.logs with
        | some (url, code) => { s with oauthUrl := some url, oauthCode := some code }
        | none => s) := by
    rw [watcherStep, if_neg (by simp [h1, h2]), if_neg (by simp [h3, h5])]
  rw [hw]
  rw [← detectOauth_isSome_iff]
  cases hd : detectOauth s.logs with
  | none => simp [h3, h4, hd]
  | some r => obtain ⟨url, code⟩ := r; simp [hd]

/-- A buffer line carrying the verification URL, used by the witness.
The marker split across a removal seam only disappears on the second
cleaning pass, so this line is matched by the program (and the model)
precisely because the replace runs twice. -/
def oauthWitnessLine : String :=
  "https://oauth.accounts.hytale.com/oauth2/device/verify?user_code\x1b\x1b[31m[31m=ABCD1234"

/-- A session state whose two-line buffer holds the URL in its window. -/
def watcherWitnessSt : SessionSt :=
  { logs := ["x", oauthWitnessLine], isStreaming := true, autoScroll := true,
    userScrolled := false, lastLogCount := 2, viewport := 2, command := "",
    commandHistory := [], historyIndex := -1, oauthUrl := none,
    oauthCode := none, oauthDismissed := false }

/-- Witness for C2: at a running session with the URL inside the scanned
window, the step latches a URL. -/
theorem watcher_scan_window_witness :
    (watcherStep Status.running watcherWitnessSt).oauthUrl.isSome = true :=
  (watcher_scan_window Status.running watcherWitnessSt (by decide) (by decide)
    rfl rfl rfl).1.mpr ⟨oauthWitnessLine, by decide, by decide⟩

/-! ## Claim C3 -/

/-- A pinned state whose buffer length matches the last observed count,
used by the C3 counterexample and witness. -/
def scrollCexSt : SessionSt :=
  { logs := ["a"], isStreaming := true, autoScroll := true,
    userScrolled := false, lastLogCount := 1, viewport := 1, command := "",
    commandHistory := [], historyIndex := -1, oauthUrl := none,
    oauthCode := none, oauthDismissed := false }

/-- Claim C3, as frozen, is false on the code at the boundary: at a
distance of exactly 50 units from the bottom (not more than 50), with the
buffer length unchanged, a manual scroll event still leaves the Pinned
state, because the code treats only distances strictly below 50 as at the
bottom. -/
theorem scroll_pin_cex :
    ¬(50 < (100 : Int) - 20 - 30) ∧
      scrollCexSt.autoScroll = true ∧ scrollCexSt.userScrolled = false ∧
      scrollCexSt.lastLogCount = scrollCexSt.logs.length ∧
      (handleScroll 20 100 30 scrollCexSt).autoScroll = false := by
  refine ⟨by decide, rfl, rfl, rfl, by decide⟩

/-- Claim C3, amended: from a Pinned state, a manual scroll event leaves
Pinned exactly when the resulting position is at least 50 distance units
from the bottom and the buffer length has not changed since last observed;
while Pinned every append jumps the viewport to the newest line, and while
Unpinned appends leave the viewport untouched. -/
theorem scroll_pin (s : SessionSt)
    (hp : s.autoScroll = true ∧ s.userScrolled = false)
    (scrollTop scrollHeight clientHeight : Int) (line : String) :
    ((handleScroll scrollTop scrollHeight clientHeight s).autoScroll = false ↔
      (50 ≤ scrollHeight - scrollTop - clientHeight ∧
        s.lastLogCount = s.logs.length)) ∧
    (appendLine line s).viewport = (appendLine line s).logs.length ∧
    (∀ s' : SessionSt, s'.autoScroll = false ∨ s'.userScrolled = true →
      (appendLine line s').viewport = s'.viewport) := by
  obtain ⟨hauto, huser⟩ := hp
  refine ⟨?_, ?_, ?_⟩
  · by_cases hbot : scrollHeight - scrollTop - clientHeight < 50
    · simp [handleScroll, hbot]
    · by_cases hcnt : s.lastLogCount = s.logs.length
      · simp [handleScroll, hbot, hcnt]
        omega
      · simp [handleScroll, hbot, hcnt, hauto]
  · simp [appendLine, autoScrollEffect, hauto, huser]
  · intro s' hs'
    have hnot : ¬(s'.autoScroll = true ∧ s'.userScrolled = false) := by
      rcases hs' with h | h <;> simp [h]
    simp [appendLine, autoScrollEffect, hnot]

/-- Witness for C3 at the boundary state: distance exactly 50 unpins, and
a pinned append lands the viewport on the newest line. -/
theorem scroll_pin_witness :
    (handleScroll 20 100 30 scrollCexSt).autoScroll = false ∧
      (appendLine "x" scrollCexSt).viewport =
        (appendLine "x" scrollCexSt).logs.length := by
  have h := scroll_pin scrollCexSt ⟨rfl, rfl⟩ 20 100 30 "x"
  exact ⟨h.1.mpr ⟨by decide, rfl⟩, h.2.1⟩

/-! ## Claim C6 -/

theorem filter_ne_length {l : List String} {a : String}
    (hnd : l.Nodup) (hmem : a ∈ l) :
    (l.filter (fun c => c != a)).length + 1 = l.length := by
  induction l with
  | nil => cases hmem
  | cons b rest ih =>
    rcases List.mem_cons.mp hmem with rfl | hmem'
    · have hnotin : a ∉ rest := (List.nodup_cons.mp hnd).1
      have hall : rest.filter (fun c => c != a) = rest := by
        apply List.filter_eq_self.mpr
        intro c hc
        simp only [bne_iff_ne, ne_eq, decide_eq_true_eq]
        intro hceq; exact hnotin (hceq ▸ hc)
      simp [List.filter_cons, hall]
    · have hba : b ≠ a := by
        intro hbeq
        exact (List.nodup_cons.mp hnd).1 (hbeq ▸ hmem')
      have h2 := ih (List.nodup_cons.mp hnd).2 hmem'
      simp only [List.filter_cons]
      have hcond : (b != a) = true := by simp [hba]
      rw [if_pos hcond]
      simp only [List.length_cons]
      omega

/-- The duplicate-free history hypothesis of C6 is an invariant: the
history starts empty and its only writer removes every copy of the
submitted command before appending it once. -/
theorem handleSendCommand_nodup (s : SessionSt)
    (h : s.commandHistory.Nodup) :
    (handleSendCommand s).commandHistory.Nodup := by
  rw [handleSendCommand]
  by_cases he : jsTrim s.command = ""
  · rw [if_pos he]; exact h
  · rw [if_neg he]
    show (s.commandHistory.filter (fun c => c != jsTrim s.command) ++
      [jsTrim s.command]).Nodup
    rw [List.nodup_append]
    refine ⟨h.filter _, List.nodup_singleton _, ?_⟩
    intro a ha hb
    have := List.of_mem_filter ha
    simp only [List.mem_singleton] at hb
    simp [hb] at this

/-- Claim C6: submitting a nonempty trimmed command that already occurs in
the (duplicate-free) history keeps the history length unchanged, removes
the prior occurrence from the older positions, appends the command at the
newest position, and resets the cursor to minus one. -/
theorem submit_dedup (s : SessionSt)
    (h1 : jsTrim s.command ≠ "")
    (h2 : jsTrim s.command ∈ s.commandHistory)
    (h3 : s.commandHistory.Nodup) :
    (handleSendCommand s).commandHistory.length = s.commandHistory.length ∧
    (handleSendCommand s).commandHistory.getLast? = some (jsTrim s.command) ∧
    jsTrim s.command ∉ (handleSendCommand s).commandHistory.dropLast ∧
    (handleSendCommand s).historyIndex = -1 := by
  have hsend : handleSendCommand s =
      { s with
        commandHistory :=
          s.commandHistory.filter (fun c => c != jsTrim s.command) ++
            [jsTrim s.command],
        historyIndex := -1,
        logs := s.logs ++ ["> " ++ jsTrim s.command],
        command := "" } := by
    rw [handleSendCommand, if_neg h1]
  rw [hsend]
  refine ⟨?_, ?_, ?_, rfl⟩
  · simp only [List.length_append, List.length_singleton]
    have := filter_ne_length h3 h2
    omega
  · simp
  · simp only [List.dropLast_concat]
    intro hmem
    have := List.of_mem_filter hmem
    simp at this

/-- Witness for C6: resubmitting the second of two history entries. -/
theorem submit_dedup_witness :
    (handleSendCommand
      { logs := [], isStreaming := false, autoScroll := true,
        userScrolled := false, lastLogCount := 0, viewport := 0,
        command := " stop ", commandHistory := ["run", "stop"],
        historyIndex := 0, oauthUrl := none, oauthCode := none,
        oauthDismissed := false }).commandHistory.length =
      (["run", "stop"] : List String).length ∧
    (handleSendCommand
      { logs := [], isStreaming := false, autoScroll := true,
        userScrolled := false, lastLogCount := 0, viewport := 0,
        command := " stop ", commandHistory := ["run", "stop"],
        historyIndex := 0, oauthUrl := none, oauthCode := none,
        oauthDismissed := false }).historyIndex = -1 := by
  have h := submit_dedup
    { logs := [], isStreaming := false, autoScroll := true,
      userScrolled := false, lastLogCount := 0, viewport := 0,
      command := " stop ", commandHistory := ["run", "stop"],
      historyIndex := 0, oauthUrl := none, oauthCode := none,
      oauthDismissed := false } (by decide) (by decide) (by decide)
  exact ⟨h.1, h.2.2.2⟩

/-! ## Claim C7 -/

theorem arrowUp_step (t : SessionSt) (hlen : 0 < t.commandHistory.length)
    (hlt : t.historyIndex < (t.commandHistory.length : Int) - 1) :
    handleArrowUp t =
      { t with historyIndex := t.historyIndex + 1,
               command := jsGet t.commandHistory
                 ((t.commandHistory.length : Int) - 1 - (t.historyIndex + 1)) } := by
  rw [handleArrowUp, if_pos hlen, if_pos hlt]

theorem arrowUp_stay (t : SessionSt) (hlen : 0 < t.commandHistory.length)
    (hge : ¬t.historyIndex < (t.commandHistory.length : Int) - 1) :
    handleArrowUp t =
      { t with historyIndex := t.historyIndex,
               command := jsGet t.commandHistory
                 ((t.commandHistory.length : Int) - 1 - t.historyIndex) } := by
  rw [handleArrowUp, if_pos hlen, if_neg hge]

theorem arrowUp_fixpoint (t : SessionSt) (hlen : 0 < t.commandHistory.length)
    (hidx : t.historyIndex = (t.commandHistory.length : Int) - 1)
    (hcmd : t.command = jsGet t.commandHistory 0) :
    handleArrowUp t = t := by
  rw [arrowUp_stay t hlen (by omega)]
  have h0 : (t.commandHistory.length : Int) - 1 - t.historyIndex = 0 := by
    rw [hidx]; ring
  rw [h0, ← hcmd]

theorem arrowUp_climb (s : SessionSt) (h0 : s.historyIndex = -1) :
    ∀ j : Nat, j < s.commandHistory.length →
      handleArrowUp^[j + 1] s =
        { s with historyIndex := (j : Int),
                 command := jsGet s.commandHistory
                   ((s.commandHistory.length : Int) - 1 - (j : Int)) } := by
  intro j
  induction j with
  | zero =>
    intro hj
    rw [Function.iterate_one,
      arrowUp_step s hj (by rw [h0]; omega), h0]
    norm_num
  | succ k ih =>
    intro hj
    have hk : k < s.commandHistory.length := by omega
    rw [Function.iterate_succ_apply', ih hk]
    have hstep2 := arrowUp_step
      { s with historyIndex := (k : Int),
               command := jsGet s.commandHistory
                 ((s.commandHistory.length : Int) - 1 - (k : Int)) }
      (by show 0 < s.commandHistory.length; omega)
      (by show (k : Int) < (s.commandHistory.length : Int) - 1; omega)
    rw [hstep2]
    have hc : ((k + 1 : Nat) : Int) = (k : Int) + 1 := by push_cast; ring
    rw [hc]

/-- Claim C7: on a history of size at least one, invoking the ArrowUp
recall more times than there are entries lands on the oldest entry with
the cursor at the oldest position, and one further invocation changes
nothing (no error, the cursor and the recalled command stay put). -/
theorem recall_prev_stabilizes (s : SessionSt) (N : Nat)
    (h1 : 1 ≤ s.commandHistory.length) (h2 : s.commandHistory.length < N)
    (h3 : s.historyIndex = -1) :
    (handleArrowUp^[N] s).command = jsGet s.commandHistory 0 ∧
    (handleArrowUp^[N] s).historyIndex = (s.commandHistory.length : Int) - 1 ∧
    handleArrowUp (handleArrowUp^[N] s) = handleArrowUp^[N] s := by
  have hclimb := arrowUp_climb s h3 (s.commandHistory.length - 1) (by omega)
  have hstep : (s.commandHistory.length - 1) + 1 = s.commandHistory.length := by
    omega
  rw [hstep] at hclimb
  set t := handleArrowUp^[s.commandHistory.length] s with ht
  have htch : t.commandHistory = s.commandHistory := by rw [hclimb]
  have htidx : t.historyIndex = (s.commandHistory.length : Int) - 1 := by
    rw [hclimb]
    show ((s.commandHistory.length - 1 : Nat) : Int) = _
    omega
  have htcmd : t.command = jsGet s.commandHistory 0 := by
    rw [hclimb]
    show jsGet s.commandHistory
      ((s.commandHistory.length : Int) - 1 -
        ((s.commandHistory.length - 1 : Nat) : Int)) = _
    congr 1
    omega
  have hfix : handleArrowUp t = t := by
    apply arrowUp_fixpoint
    · rw [htch]; omega
    · rw [htidx, htch]
    · rw [htcmd, htch]
  have hiter : handleArrowUp^[N] s = t := by
    have hN : N = (N - s.commandHistory.length) + s.commandHistory.length := by
      omega
    rw [hN, Function.iterate_add_apply, ← ht]
    exact Function.iterate_fixed hfix (N - s.commandHistory.length)
  rw [hiter]
  exact ⟨htcmd, htidx, hfix⟩

/-- Witness for C7: three recalls on a two-entry history land on the
oldest entry. -/
theorem recall_prev_stabilizes_witness :
    (handleArrowUp^[3]
      { logs := [], isStreaming := false, autoScroll := true,
        userScrolled := false, lastLogCount := 0, viewport := 0, command := "",
        commandHistory := ["alpha", "beta"], historyIndex := -1,
        oauthUrl := none, oauthCode := none,
        oauthDismissed := false }).command =
      jsGet ["alpha", "beta"] 0 := by
  have h := recall_prev_stabilizes
    { logs := [], isStreaming := false, autoScroll := true,
      userScrolled := false, lastLogCount := 0, viewport := 0, command := "",
      commandHistory := ["alpha", "beta"], historyIndex := -1,
      oauthUrl := none, oauthCode := none, oauthDismissed := false }
    3 (by decide) (by decide) rfl
  exact h.1

end Serverwave
